import Mathlib

/-!
# Verification of the secure-connectivity layer of `translation-editor`

This file shallowly embeds the security-critical parts of the repository's
`src-tauri` backend and proves (or refutes) the specification claims about
them:

* `secrets/vault.rs` — the encrypted vault file codec
  (`encrypt_and_write` / `read_and_decrypt`);
* `secrets/manager.rs` — the `SecretManager` cache with write-through
  persistence and lazy initialization;
* `mcp/oauth.rs` — `OAuthToken` expiry, the OAuth redirect-callback
  handler of `run_callback_server`, and `get_access_token`;
* `commands/connector.rs` — `ConnectorToken` expiry and
  `connector_get_token`;
* `mcp/client.rs` — the exponential-backoff retry loop of
  `McpClient::connect`.

External libraries (the `chacha20poly1305` AEAD cipher, `serde_json`, the
OS keychain, the network) are modelled as ideal functional components with
exactly the interface contracts the code relies on; every piece of logic
that lives in the repository itself (file format, branching, error mapping,
cache updates, state machines) is translated line by line from the source.
All definitions are executable.
-/

namespace ITE

/-! ## Byte-level codec model for `serde_json`

`vault.rs` serializes a `SecretsPayload` with `serde_json::to_vec` and
parses it back with `serde_json::from_slice`.  The library is external to
the repository; we model it as an injective byte encoding with a matching
parser (the contract the code relies on: `from_slice (to_vec p) = p`, and
`from_slice` fails on malformed input).  Bytes are modelled as `Nat`.
The `HashMap<String, String>` field is modelled as an association list
whose lookup semantics mirror the map. -/

/-- A string encoded as its character count followed by its code points. -/
def encodeStr (s : String) : List Nat :=
  s.data.length :: s.data.map Char.toNat

/-- Parser inverse of `encodeStr`, consuming a prefix of the byte list. -/
def decodeStr : List Nat → Option (String × List Nat)
  | [] => none
  | n :: rest =>
    if n ≤ rest.length then
      some (String.mk ((rest.take n).map Char.ofNat), rest.drop n)
    else none

/-- Encoding of a list of key-value pairs, in order. -/
def encodePairs : List (String × String) → List Nat
  | [] => []
  | (k, v) :: rest => encodeStr k ++ encodeStr v ++ encodePairs rest

/-- Parser inverse of `encodePairs`: reads `n` pairs. -/
def decodePairs : Nat → List Nat → Option (List (String × String) × List Nat)
  | 0, bs => some ([], bs)
  | n + 1, bs => do
    let (k, bs1) ← decodeStr bs
    let (v, bs2) ← decodeStr bs1
    let (rest, bs3) ← decodePairs n bs2
    some ((k, v) :: rest, bs3)

/-- `SecretsPayload` from `vault.rs`: the secrets map (modelled as an
association list of namespaced keys to values) plus the schema version. -/
structure SecretsPayload where
  secrets : List (String × String)
  version : Nat
deriving DecidableEq, Repr

/-- Model of `serde_json::to_vec` on a `SecretsPayload`: an injective byte
serialization (version, pair count, then the encoded pairs). -/
def serdeToVec (p : SecretsPayload) : List Nat :=
  p.version :: p.secrets.length :: encodePairs p.secrets

/-- Model of `serde_json::from_slice::<SecretsPayload>`: parses the bytes
produced by `serdeToVec`, failing on anything malformed. -/
def serdeFromSlice (bs : List Nat) : Option SecretsPayload :=
  match bs with
  | v :: n :: rest =>
    match decodePairs n rest with
    | some (pairs, []) => some ⟨pairs, v⟩
    | _ => none
  | _ => none

theorem decodeStr_encodeStr (s : String) (r : List Nat) :
    decodeStr (encodeStr s ++ r) = some (s, r) := by
  simp only [encodeStr, decodeStr, List.cons_append]
  rw [if_pos]
  · congr 1
    have h1 : (s.data.map Char.toNat ++ r).take s.data.length = s.data.map Char.toNat :=
      List.take_left' (by simp)
    have h2 : (s.data.map Char.toNat ++ r).drop s.data.length = r :=
      List.drop_left' (by simp)
    rw [h1, h2]
    have hmap : List.map Char.ofNat (List.map Char.toNat s.data) = s.data := by
      rw [List.map_map]
      have hfun : (Char.ofNat ∘ Char.toNat) = id := funext Char.ofNat_toNat
      rw [hfun, List.map_id]
    rw [hmap]
  · simp

theorem decodePairs_encodePairs (l : List (String × String)) (r : List Nat) :
    decodePairs l.length (encodePairs l ++ r) = some (l, r) := by
  induction l generalizing r with
  | nil => simp [decodePairs, encodePairs]
  | cons kv rest ih =>
    obtain ⟨k, v⟩ := kv
    simp only [encodePairs, List.length_cons, decodePairs, List.append_assoc]
    rw [decodeStr_encodeStr]
    simp only [Option.bind_eq_bind, Option.some_bind]
    rw [decodeStr_encodeStr]
    simp only [Option.some_bind]
    rw [ih]
    rfl

theorem serde_roundtrip (p : SecretsPayload) :
    serdeFromSlice (serdeToVec p) = some p := by
  have h := decodePairs_encodePairs p.secrets []
  rw [List.append_nil] at h
  simp [serdeToVec, serdeFromSlice, h]

/-! ## Ideal AEAD model for `chacha20poly1305::XChaCha20Poly1305`

The cipher is an external crate.  We model it as an ideal AEAD: the
ciphertext determines (key, nonce, associated data, message), decryption
returns the message exactly when key, nonce and associated data all match,
and fails otherwise.  (The real cipher guarantees this except with
negligible forgery probability; the repository code treats it exactly
this way.)  The model is executable: the ciphertext is a self-delimiting
encoding of the four components. -/

/-- Length-prefix a byte list (self-delimiting frame). -/
def frameL (xs : List Nat) : List Nat := xs.length :: xs

/-- Parser inverse of `frameL`. -/
def unframeL : List Nat → Option (List Nat × List Nat)
  | [] => none
  | n :: rest =>
    if n ≤ rest.length then some (rest.take n, rest.drop n) else none

theorem unframeL_frameL (xs r : List Nat) :
    unframeL (frameL xs ++ r) = some (xs, r) := by
  simp only [frameL, unframeL, List.cons_append]
  rw [if_pos]
  · rw [List.take_left, List.drop_left]
  · simp

/-- Ideal AEAD encryption: the ciphertext is an (injective) encoding of
key, nonce, associated data and message. -/
def aeadEncrypt (key nonce aad msg : List Nat) : List Nat :=
  frameL key ++ frameL nonce ++ frameL aad ++ frameL msg

/-- Ideal AEAD decryption: succeeds with the message exactly when the
ciphertext was produced under the same key, nonce and associated data. -/
def aeadDecrypt (key nonce aad ct : List Nat) : Option (List Nat) := do
  let (k, r1) ← unframeL ct
  let (n, r2) ← unframeL r1
  let (a, r3) ← unframeL r2
  let (m, r4) ← unframeL r3
  if k = key ∧ n = nonce ∧ a = aad ∧ r4 = [] then some m else none

theorem aeadDecrypt_aeadEncrypt (key nonce aad msg : List Nat) :
    aeadDecrypt key nonce aad (aeadEncrypt key nonce aad msg) = some msg := by
  simp only [aeadEncrypt, aeadDecrypt, List.append_assoc]
  rw [unframeL_frameL]
  simp only [Option.bind_eq_bind, Option.some_bind]
  rw [unframeL_frameL]
  simp only [Option.some_bind]
  rw [unframeL_frameL]
  simp only [Option.some_bind]
  have h4 : unframeL (frameL msg) = some (msg, []) := by
    have := unframeL_frameL msg []
    rwa [List.append_nil] at this
  rw [h4]
  simp

theorem aeadDecrypt_aeadEncrypt_mismatch (key nonce aad key' nonce' aad' msg : List Nat)
    (h : key' ≠ key ∨ nonce' ≠ nonce ∨ aad' ≠ aad) :
    aeadDecrypt key' nonce' aad' (aeadEncrypt key nonce aad msg) = none := by
  simp only [aeadEncrypt, aeadDecrypt, List.append_assoc]
  rw [unframeL_frameL]
  simp only [Option.bind_eq_bind, Option.some_bind]
  rw [unframeL_frameL]
  simp only [Option.some_bind]
  rw [unframeL_frameL]
  simp only [Option.some_bind]
  have h4 : unframeL (frameL msg) = some (msg, []) := by
    have := unframeL_frameL msg []
    rwa [List.append_nil] at this
  rw [h4]
  simp only [Option.some_bind]
  have hneg : ¬(key = key' ∧ nonce = nonce' ∧ aad = aad' ∧ True) := by
    rintro ⟨h1, h2, h3, -⟩
    rcases h with hh | hh | hh
    · exact hh h1.symm
    · exact hh h2.symm
    · exact hh h3.symm
  rw [if_neg hneg]

/-! ## `secrets/vault.rs` -/

/-- `VAULT_MAGIC`: the bytes of `ITESECR1`. -/
def VAULT_MAGIC : List Nat := [73, 84, 69, 83, 69, 67, 82, 49]

/-- `MASTER_KEY_LEN` from `vault.rs`. -/
def MASTER_KEY_LEN : Nat := 32

/-- `NONCE_LEN` from `vault.rs`. -/
def NONCE_LEN : Nat := 24

/-- `VaultError` from `vault.rs`.  The strings carried by the Rust
variants come from external error displays and are dropped, except for
`InvalidFormat` whose string the manager reuses. -/
inductive VaultError where
  | ioErr
  | invalidMagic
  | invalidFormat (msg : String)
  | decryptionFailed
  | encryptionFailed
  | serialization
deriving DecidableEq, Repr

/-- `encrypt_and_write` from `vault.rs`: serialize the payload, encrypt
it under the master key with the given fresh random `nonce`, and produce
the vault file bytes `VAULT_MAGIC ++ nonce ++ ciphertext`.

The random nonce is passed as a parameter (the source draws it from
`rand::thread_rng`), and the atomic temp-file-then-rename dance is
abstracted to "the file now holds these bytes".

Note on associated data: the module documentation of `vault.rs` says the
magic is used as AEAD associated data, but the call
`cipher.encrypt(XNonce::from_slice(&nonce), plaintext.as_ref())` passes
the plaintext alone, and `&[u8]`'s conversion to `Payload` in the
`chacha20poly1305` crate sets `aad = &[]`.  The model therefore passes
the empty associated data, exactly as the compiled code does. -/
def encrypt_and_write (master_key : List Nat) (payload : SecretsPayload)
    (nonce : List Nat) : List Nat :=
  VAULT_MAGIC ++ (nonce ++ aeadEncrypt master_key nonce [] (serdeToVec payload))

/-- `read_and_decrypt` from `vault.rs`: check the 8-byte magic, split off
the 24-byte nonce, decrypt the rest (again with empty associated data, as
the source's `cipher.decrypt(nonce, ciphertext.as_ref())` does), and
deserialize.  Failure points mirror the source order: short file → IO
error from `read_exact`, bad magic → `InvalidMagic`, cipher failure →
`DecryptionFailed`, parse failure → `Serialization`. -/
def read_and_decrypt (file : List Nat) (master_key : List Nat) :
    Except VaultError SecretsPayload :=
  if file.length < 8 then .error .ioErr
  else if file.take 8 ≠ VAULT_MAGIC then .error .invalidMagic
  else if (file.drop 8).length < NONCE_LEN then .error .ioErr
  else
    match aeadDecrypt master_key ((file.drop 8).take NONCE_LEN) []
        ((file.drop 8).drop NONCE_LEN) with
    | none => .error .decryptionFailed
    | some pt =>
      match serdeFromSlice pt with
      | none => .error .serialization
      | some payload => .ok payload

theorem vault_file_parts (master_key : List Nat) (payload : SecretsPayload)
    (nonce : List Nat) :
    (encrypt_and_write master_key payload nonce).take 8 = VAULT_MAGIC ∧
    (encrypt_and_write master_key payload nonce).drop 8 =
      nonce ++ aeadEncrypt master_key nonce [] (serdeToVec payload) := by
  unfold encrypt_and_write
  exact ⟨List.take_left' rfl, List.drop_left' rfl⟩

/-- C1: writing the vault with `encrypt_and_write(path, K, P)` and reading
it back with `read_and_decrypt(path, K)` under the same 32-byte master key
succeeds and returns a payload equal to `P` (same key-value map and same
version), for every payload and every fresh 24-byte nonce. -/
theorem vault_encrypt_decrypt_roundtrip (payload : SecretsPayload)
    (master_key nonce : List Nat)
    (_hk : master_key.length = MASTER_KEY_LEN) (hn : nonce.length = NONCE_LEN) :
    read_and_decrypt (encrypt_and_write master_key payload nonce) master_key =
      .ok payload := by
  obtain ⟨h1, hd⟩ := vault_file_parts master_key payload nonce
  have hL : ¬ (encrypt_and_write master_key payload nonce).length < 8 := by
    simp only [encrypt_and_write, VAULT_MAGIC, List.length_append, List.length_cons,
      List.length_nil]
    omega
  unfold read_and_decrypt
  rw [if_neg hL, if_neg (by simp [h1]), hd, List.take_left' hn, List.drop_left' hn,
    if_neg (by simp only [List.length_append, hn, NONCE_LEN]; omega),
    aeadDecrypt_aeadEncrypt]
  simp [serde_roundtrip]

/-- C1 witness: the roundtrip at a concrete payload, key and nonce. -/
def keyA : List Nat := List.replicate 32 1

/-- A second concrete 32-byte key, distinct from `keyA`. -/
def keyB : List Nat := List.replicate 32 2

/-- A concrete 24-byte nonce. -/
def nonceA : List Nat := List.replicate 24 5

/-- A concrete secrets payload. -/
def payloadA : SecretsPayload := ⟨[("ai/openai_api_key", "sk-test123")], 1⟩

/-- C1 witness: the roundtrip theorem applied at concrete inputs. -/
theorem vault_encrypt_decrypt_roundtrip_witness :
    keyA.length = MASTER_KEY_LEN ∧ nonceA.length = NONCE_LEN ∧
    read_and_decrypt (encrypt_and_write keyA payloadA nonceA) keyA =
      .ok payloadA :=
  ⟨by decide, by decide,
    vault_encrypt_decrypt_roundtrip payloadA keyA nonceA (by decide) (by decide)⟩

/-- C2: decrypting a vault written under key `K1` with a different key
`K2` fails with `DecryptionFailed`; it never returns success with
corrupted data. -/
theorem vault_wrong_key_fails (payload : SecretsPayload)
    (k1 k2 nonce : List Nat)
    (_hk1 : k1.length = MASTER_KEY_LEN) (_hk2 : k2.length = MASTER_KEY_LEN)
    (hne : k1 ≠ k2) (hn : nonce.length = NONCE_LEN) :
    read_and_decrypt (encrypt_and_write k1 payload nonce) k2 =
      .error .decryptionFailed := by
  obtain ⟨h1, hd⟩ := vault_file_parts k1 payload nonce
  have hL : ¬ (encrypt_and_write k1 payload nonce).length < 8 := by
    simp only [encrypt_and_write, VAULT_MAGIC, List.length_append, List.length_cons,
      List.length_nil]
    omega
  unfold read_and_decrypt
  rw [if_neg hL, if_neg (by simp [h1]), hd, List.take_left' hn, List.drop_left' hn,
    if_neg (by simp only [List.length_append, hn, NONCE_LEN]; omega),
    aeadDecrypt_aeadEncrypt_mismatch k1 nonce [] k2 nonce [] _
      (Or.inl (fun hc => hne hc.symm))]

/-- C2 witness: the wrong-key theorem applied at concrete distinct keys. -/
theorem vault_wrong_key_fails_witness :
    keyA ≠ keyB ∧
    read_and_decrypt (encrypt_and_write keyA payloadA nonceA) keyB =
      .error .decryptionFailed :=
  ⟨by decide,
    vault_wrong_key_fails payloadA keyA keyB nonceA (by decide) (by decide)
      (by decide) (by decide)⟩

/-- C3: the vault ciphertext is authenticated against the EMPTY associated
data, not against the format tag: `cipher.encrypt(nonce, plaintext)` in
`encrypt_and_write` converts the bare plaintext to a `Payload` with
`aad = []`, despite the module documentation of `vault.rs` saying the
magic is bound as AAD.  Concretely, for every written vault file the
ciphertext decrypts under empty associated data and FAILS to authenticate
under the `ITESECR1` tag as associated data. -/
theorem vault_aad_not_bound_to_magic (payload : SecretsPayload)
    (master_key nonce : List Nat) (hn : nonce.length = NONCE_LEN) :
    aeadDecrypt master_key nonce VAULT_MAGIC
        (((encrypt_and_write master_key payload nonce).drop 8).drop NONCE_LEN) = none ∧
    aeadDecrypt master_key nonce []
        (((encrypt_and_write master_key payload nonce).drop 8).drop NONCE_LEN) =
      some (serdeToVec payload) := by
  obtain ⟨h1, hd⟩ := vault_file_parts master_key payload nonce
  rw [hd, List.drop_left' hn]
  constructor
  · exact aeadDecrypt_aeadEncrypt_mismatch master_key nonce [] master_key nonce
      VAULT_MAGIC _ (Or.inr (Or.inr (by decide)))
  · exact aeadDecrypt_aeadEncrypt master_key nonce [] (serdeToVec payload)

/-- C3 witness: at a concrete key, nonce and payload, the written
ciphertext authenticates only against empty associated data. -/
theorem vault_aad_not_bound_to_magic_witness :
    nonceA.length = NONCE_LEN ∧
    aeadDecrypt keyA nonceA VAULT_MAGIC
        (((encrypt_and_write keyA payloadA nonceA).drop 8).drop NONCE_LEN) = none :=
  ⟨by decide, (vault_aad_not_bound_to_magic payloadA keyA nonceA (by decide)).1⟩

/-! ## `secrets/manager.rs`

`SecretManager` holds a master key, an in-memory cache, an init state and
the app data dir.  The OS keychain and the vault file on disk are modelled
as part of the same state record, and every operation additionally reports
the list of external effects it performed (keychain / vault-file reads and
writes), which is how the frame claims are stated.  The keychain's
base64 transport encoding of the master key is elided (the entry holds the
key bytes); the random replacement master key and the random vault nonce
are passed as parameters. -/

/-- `InitState` from `manager.rs`. -/
inductive InitState where
  | notInitialized
  | initializing
  | ready
  | failed (msg : String)
deriving DecidableEq, Repr

/-- `SecretManagerError` from `manager.rs`. -/
inductive SMError where
  | keychain (msg : String)
  | keychainNoEntry
  | vault (e : VaultError)
  | notInitialized
  | invalidMasterKey
  | appDataDirNotSet
deriving DecidableEq, Repr

/-- Display strings of `SecretManagerError` (`thiserror` messages),
used where the source stores `e.to_string()`. -/
def SMError.message : SMError → String
  | .keychain m => "Keychain error: " ++ m
  | .keychainNoEntry => "Keychain entry not found"
  | .vault _ => "Vault error"
  | .notInitialized => "Not initialized"
  | .invalidMasterKey => "Invalid master key format"
  | .appDataDirNotSet => "App data dir not set"

/-- External effects a `SecretManager` operation can perform. -/
inductive Effect where
  | keychainRead
  | keychainWrite
  | vaultRead
  | vaultWrite
deriving DecidableEq, Repr

/-- The state of the `SecretManager` together with the external world it
touches: the OS keychain entry for the master key and the vault file. -/
structure SMState where
  masterKey : Option (List Nat)
  cache : List (String × String)
  initState : InitState
  appDataDirSet : Bool
  keychainEntry : Option (List Nat)
  vaultFile : Option (List Nat)
deriving DecidableEq, Repr

/-- `HashMap::remove` on the association-list model. -/
def removeKV (k : String) (c : List (String × String)) : List (String × String) :=
  c.filter (fun p => p.1 != k)

/-- `HashMap::insert` on the association-list model. -/
def insertKV (k v : String) (c : List (String × String)) : List (String × String) :=
  (k, v) :: removeKV k c

/-- `load_master_key_from_keychain`: read the entry, fail with
`KeychainNoEntry` when absent and `InvalidMasterKey` when not 32 bytes. -/
def smLoadMasterKey (st : SMState) : Except SMError (List Nat) :=
  match st.keychainEntry with
  | none => .error .keychainNoEntry
  | some bytes =>
    if bytes.length = MASTER_KEY_LEN then .ok bytes else .error .invalidMasterKey

/-- Second half of `initialize`: record the master key, then load the
vault file into the cache if the data dir is set and the file exists; a
decrypt failure is non-fatal (start with the existing, empty cache). -/
def smInitLoadVault (st : SMState) (key : List Nat) (eff : List Effect) :
    Except SMError Unit × SMState × List Effect :=
  let st1 := { st with masterKey := some key }
  if st1.appDataDirSet then
    match st1.vaultFile with
    | some file =>
      match read_and_decrypt file key with
      | .ok payload =>
        (.ok (), { st1 with cache := payload.secrets, initState := .ready },
          eff ++ [Effect.vaultRead])
      | .error _ =>
        (.ok (), { st1 with initState := .ready }, eff ++ [Effect.vaultRead])
    | none => (.ok (), { st1 with initState := .ready }, eff)
  else (.ok (), { st1 with initState := .ready }, eff)

/-- `SecretManager::initialize`: idempotent; loads or creates the master
key from the keychain, then loads the vault into the cache. -/
def smInit (st : SMState) (newKey : List Nat) :
    Except SMError Unit × SMState × List Effect :=
  match st.initState with
  | .ready => (.ok (), st, [])
  | .initializing => (.ok (), st, [])
  | .failed msg => (.error (.vault (.invalidFormat msg)), st, [])
  | .notInitialized =>
    match smLoadMasterKey st with
    | .ok key => smInitLoadVault st key [Effect.keychainRead]
    | .error .keychainNoEntry =>
      smInitLoadVault { st with keychainEntry := some newKey } newKey
        [Effect.keychainRead, Effect.keychainWrite]
    | .error e =>
      (.error e, { st with initState := .failed e.message }, [Effect.keychainRead])

/-- `ensure_initialized`: lazy init when the state is not `Ready`. -/
def ensureInitialized (st : SMState) (newKey : List Nat) :
    Except SMError Unit × SMState × List Effect :=
  if st.initState = .ready then (.ok (), st, []) else smInit st newKey

/-- `persist_vault`: re-encrypt the whole cache and produce the new vault
file bytes; fails if there is no master key or no data dir. -/
def persistVault (st : SMState) (nonce : List Nat) : Except SMError (List Nat) :=
  match st.masterKey with
  | none => .error .notInitialized
  | some mk =>
    if st.appDataDirSet then
      .ok (encrypt_and_write mk ⟨st.cache, 1⟩ nonce)
    else .error .appDataDirNotSet

/-- `SecretManager::set`: update the cache, then persist the vault. -/
def smSet (st : SMState) (key value : String) (newKey nonce : List Nat) :
    Except SMError Unit × SMState × List Effect :=
  match ensureInitialized st newKey with
  | (.error e, st', eff) => (.error e, st', eff)
  | (.ok _, st1, eff) =>
    let st2 := { st1 with cache := insertKV key value st1.cache }
    match persistVault st2 nonce with
    | .error e => (.error e, st2, eff)
    | .ok file => (.ok (), { st2 with vaultFile := some file }, eff ++ [Effect.vaultWrite])

/-- `SecretManager::set_many`: insert all entries, then persist once. -/
def smSetMany (st : SMState) (entries : List (String × String)) (newKey nonce : List Nat) :
    Except SMError Unit × SMState × List Effect :=
  match ensureInitialized st newKey with
  | (.error e, st', eff) => (.error e, st', eff)
  | (.ok _, st1, eff) =>
    let st2 := { st1 with cache := entries.foldl (fun c kv => insertKV kv.1 kv.2 c) st1.cache }
    match persistVault st2 nonce with
    | .error e => (.error e, st2, eff)
    | .ok file => (.ok (), { st2 with vaultFile := some file }, eff ++ [Effect.vaultWrite])

/-- `SecretManager::delete`: remove from the cache, then persist. -/
def smDelete (st : SMState) (key : String) (newKey nonce : List Nat) :
    Except SMError Unit × SMState × List Effect :=
  match ensureInitialized st newKey with
  | (.error e, st', eff) => (.error e, st', eff)
  | (.ok _, st1, eff) =>
    let st2 := { st1 with cache := removeKV key st1.cache }
    match persistVault st2 nonce with
    | .error e => (.error e, st2, eff)
    | .ok file => (.ok (), { st2 with vaultFile := some file }, eff ++ [Effect.vaultWrite])

/-- `SecretManager::delete_many`: remove all keys, then persist once. -/
def smDeleteMany (st : SMState) (keys : List String) (newKey nonce : List Nat) :
    Except SMError Unit × SMState × List Effect :=
  match ensureInitialized st newKey with
  | (.error e, st', eff) => (.error e, st', eff)
  | (.ok _, st1, eff) =>
    let st2 := { st1 with cache := keys.foldl (fun c k => removeKV k c) st1.cache }
    match persistVault st2 nonce with
    | .error e => (.error e, st2, eff)
    | .ok file => (.ok (), { st2 with vaultFile := some file }, eff ++ [Effect.vaultWrite])

/-- `SecretManager::get`: cache lookup after `ensure_initialized`. -/
def smGet (st : SMState) (key : String) (newKey : List Nat) :
    Except SMError (Option String) × SMState × List Effect :=
  match ensureInitialized st newKey with
  | (.error e, st', eff) => (.error e, st', eff)
  | (.ok _, st', eff) => (.ok (List.lookup key st'.cache), st', eff)

/-- `SecretManager::get_many`: lookup of each requested key. -/
def smGetMany (st : SMState) (keys : List String) (newKey : List Nat) :
    Except SMError (List (String × String)) × SMState × List Effect :=
  match ensureInitialized st newKey with
  | (.error e, st', eff) => (.error e, st', eff)
  | (.ok _, st', eff) =>
    (.ok (keys.filterMap fun k => (List.lookup k st'.cache).map fun v => (k, v)), st', eff)

/-- `SecretManager::has`: `contains_key` on the cache. -/
def smHas (st : SMState) (key : String) (newKey : List Nat) :
    Except SMError Bool × SMState × List Effect :=
  match ensureInitialized st newKey with
  | (.error e, st', eff) => (.error e, st', eff)
  | (.ok _, st', eff) => (.ok (List.lookup key st'.cache).isSome, st', eff)

/-- `SecretManager::list_keys_by_prefix` (named without the underscore
word here): all cache keys starting with the given string. -/
def smListKeysByPfx (st : SMState) (pfx : String) (newKey : List Nat) :
    Except SMError (List String) × SMState × List Effect :=
  match ensureInitialized st newKey with
  | (.error e, st', eff) => (.error e, st', eff)
  | (.ok _, st', eff) =>
    (.ok ((st'.cache.map Prod.fst).filter fun k => k.startsWith pfx), st', eff)

/-- Shape of a successful-or-failed mutating operation: the cache is
updated to `newCache` in both cases; on success the vault file holds the
re-encryption of the whole new cache (and a vault write happened); on a
persist error the vault file is untouched. -/
def WriteThrough (st st' : SMState) (newCache : List (String × String))
    (r : Except SMError Unit) (eff : List Effect) (nonce : List Nat) : Prop :=
  st'.cache = newCache ∧
  (r = .ok () → ∃ mk, st.masterKey = some mk ∧
    st'.vaultFile = some (encrypt_and_write mk ⟨newCache, 1⟩ nonce) ∧
    Effect.vaultWrite ∈ eff) ∧
  (∀ e, r = .error e → st'.vaultFile = st.vaultFile)

/-- C4 (amended): from an initialized (`Ready`) state, each mutating
operation (`set`, `set_many`, `delete`, `delete_many`) first updates the
in-memory cache and then synchronously re-encrypts and rewrites the whole
vault before returning success; on a persist error it returns the error
and leaves the vault file untouched, but the cache RETAINS the update
(there is no rollback, so a subsequent `get` does observe the
unpersisted value — refuting the original claim's second half). -/
theorem mutators_write_through (st : SMState) (k v : String)
    (entries : List (String × String)) (ks : List String) (newKey nonce : List Nat)
    (h : st.initState = .ready) :
    WriteThrough st (smSet st k v newKey nonce).2.1 (insertKV k v st.cache)
      (smSet st k v newKey nonce).1 (smSet st k v newKey nonce).2.2 nonce ∧
    WriteThrough st (smSetMany st entries newKey nonce).2.1
      (entries.foldl (fun c kv => insertKV kv.1 kv.2 c) st.cache)
      (smSetMany st entries newKey nonce).1 (smSetMany st entries newKey nonce).2.2 nonce ∧
    WriteThrough st (smDelete st k newKey nonce).2.1 (removeKV k st.cache)
      (smDelete st k newKey nonce).1 (smDelete st k newKey nonce).2.2 nonce ∧
    WriteThrough st (smDeleteMany st ks newKey nonce).2.1
      (ks.foldl (fun c kk => removeKV kk c) st.cache)
      (smDeleteMany st ks newKey nonce).1 (smDeleteMany st ks newKey nonce).2.2 nonce := by
  cases hmk : st.masterKey with
  | none =>
    simp [smSet, smSetMany, smDelete, smDeleteMany, ensureInitialized, h,
      persistVault, hmk, WriteThrough]
  | some mk =>
    cases had : st.appDataDirSet with
    | false =>
      simp [smSet, smSetMany, smDelete, smDeleteMany, ensureInitialized, h,
        persistVault, hmk, had, WriteThrough]
    | true =>
      simp [smSet, smSetMany, smDelete, smDeleteMany, ensureInitialized, h,
        persistVault, hmk, had, WriteThrough]

/-- A `Ready` manager state whose data dir was never set: `persist_vault`
fails there with `AppDataDirNotSet` (reachable, since `initialize` reaches
`Ready` even when `app_data_dir` is not set). -/
def stNoDir : SMState :=
  { masterKey := some keyA, cache := [], initState := .ready,
    appDataDirSet := false, keychainEntry := some keyA, vaultFile := none }

/-- C4 counterexample: `set` fails to persist (`AppDataDirNotSet`), yet a
subsequent `get` observes the value whose persist failed — the cache is
NOT unchanged from the caller's point of view, refuting the claim as
stated. -/
theorem smSet_persist_failure_observable :
    (smSet stNoDir "k" "v" keyA nonceA).1 = .error .appDataDirNotSet ∧
    (smGet (smSet stNoDir "k" "v" keyA nonceA).2.1 "k" keyA).1 = .ok (some "v") := by
  constructor <;> rfl

/-- C4 witness: the amended write-through theorem applied at a concrete
ready state with a data dir, where `set` succeeds. -/
theorem mutators_write_through_witness :
    ({ stNoDir with appDataDirSet := true } : SMState).initState = .ready ∧
    WriteThrough { stNoDir with appDataDirSet := true }
      (smSet { stNoDir with appDataDirSet := true } "k" "v" keyA nonceA).2.1
      (insertKV "k" "v" ({ stNoDir with appDataDirSet := true } : SMState).cache)
      (smSet { stNoDir with appDataDirSet := true } "k" "v" keyA nonceA).1
      (smSet { stNoDir with appDataDirSet := true } "k" "v" keyA nonceA).2.2 nonceA :=
  ⟨rfl,
    (mutators_write_through { stNoDir with appDataDirSet := true } "k" "v" [] []
      keyA nonceA rfl).1⟩

/-- C9 (amended): once the manager is initialized (`Ready`), the read
operations `get`, `get_many`, `has` and `list_keys_by_prefix` are
cache-only: they return pure functions of the cache, leave the state
(including cache and vault file) unchanged and perform no keychain or
disk effect. -/
theorem readers_cache_only (st : SMState) (key pfx : String) (keys : List String)
    (newKey : List Nat) (h : st.initState = .ready) :
    smGet st key newKey = (.ok (List.lookup key st.cache), st, []) ∧
    smGetMany st keys newKey =
      (.ok (keys.filterMap fun k => (List.lookup k st.cache).map fun v => (k, v)), st, []) ∧
    smHas st key newKey = (.ok (List.lookup key st.cache).isSome, st, []) ∧
    smListKeysByPfx st pfx newKey =
      (.ok ((st.cache.map Prod.fst).filter fun k => k.startsWith pfx), st, []) := by
  simp [smGet, smGetMany, smHas, smListKeysByPfx, ensureInitialized, h]

/-- The vault file written for `payloadA` under `keyA`. -/
def vaultFileA : List Nat := encrypt_and_write keyA payloadA nonceA

/-- An uninitialized manager state with an existing keychain entry and an
existing vault file on disk. -/
def stFresh : SMState :=
  { masterKey := none, cache := [], initState := .notInitialized,
    appDataDirSet := true, keychainEntry := some keyA, vaultFile := some vaultFileA }

set_option maxRecDepth 8192

/-- C9 counterexample: called on an uninitialized manager, `get` runs the
lazy initialization: it READS the OS keychain and the vault file on disk
and CHANGES the secret cache (it even returns the freshly loaded secret)
— refuting the unconditional claim. -/
theorem smGet_uninitialized_touches_keychain :
    (smGet stFresh "ai/openai_api_key" keyA).2.2 =
      [Effect.keychainRead, Effect.vaultRead] ∧
    (smGet stFresh "ai/openai_api_key" keyA).2.1.cache ≠ stFresh.cache ∧
    (smGet stFresh "ai/openai_api_key" keyA).1 = .ok (some "sk-test123") := by
  refine ⟨rfl, by decide, rfl⟩

/-- C9 witness: the amended cache-only theorem applied at a concrete
ready state. -/
theorem readers_cache_only_witness :
    stNoDir.initState = .ready ∧
    smGet stNoDir "k" keyA = (.ok (List.lookup "k" stNoDir.cache), stNoDir, []) :=
  ⟨rfl, (readers_cache_only stNoDir "k" "ai/" ["k"] keyA rfl).1⟩

/-! ## `mcp/oauth.rs` and `commands/connector.rs`: tokens and expiry

`chrono::Utc::now()` is passed explicitly as `now` (epoch seconds). -/

/-- `TOKEN_REFRESH_MARGIN_SECS` (both files define it as 300). -/
def TOKEN_REFRESH_MARGIN_SECS : Int := 300

/-- `OAuthToken` from `mcp/oauth.rs`. -/
structure OAuthToken where
  access_token : String
  token_type : String
  expires_in : Option Int
  refresh_token : Option String
  scope : Option String
  issued_at : Int
deriving DecidableEq, Repr

/-- `OAuthToken::is_expired`: expired (or about to expire) when
`now ≥ issued_at + expires_in - margin`; never expired without
`expires_in`. -/
def OAuthToken.is_expired (t : OAuthToken) (now : Int) : Bool :=
  match t.expires_in with
  | some expires_in =>
    decide (now ≥ t.issued_at + expires_in - TOKEN_REFRESH_MARGIN_SECS)
  | none => false

/-- `ConnectorToken` from `commands/connector.rs`. -/
structure ConnectorToken where
  access_token : String
  refresh_token : Option String
  expires_at : Option Int
  token_type : Option String
deriving DecidableEq, Repr

/-- `ConnectorToken::is_expired`: `now ≥ expires_at - margin`. -/
def ConnectorToken.is_expired (t : ConnectorToken) (now : Int) : Bool :=
  match t.expires_at with
  | some expires_at => decide (now ≥ expires_at - TOKEN_REFRESH_MARGIN_SECS)
  | none => false

/-- `ConnectorToken::can_refresh`. -/
def ConnectorToken.can_refresh (t : ConnectorToken) : Bool :=
  t.refresh_token.isSome

/-- A token issued at `T` that expires in 3600 seconds. -/
def tokenIssuedAt (T : Int) : OAuthToken :=
  { access_token := "at", token_type := "bearer", expires_in := some 3600,
    refresh_token := none, scope := none, issued_at := T }

/-- C5: `OAuthToken.is_expired` is true exactly when `expires_in` is
present and `now ≥ issued_at + expires_in - 300`; with `expires_in`
absent it is always false; the token issued at `T` with `expires_in =
3600` is expired at `T+3350` and not at `T+3000`; and
`ConnectorToken.is_expired` applies the same 300-second margin to
`expires_at`. -/
theorem token_expiry_margin (t : OAuthToken) (ct : ConnectorToken) (now T : Int) :
    (t.is_expired now = true ↔
      ∃ e, t.expires_in = some e ∧ t.issued_at + e - 300 ≤ now) ∧
    (t.expires_in = none → t.is_expired now = false) ∧
    (tokenIssuedAt T).is_expired (T + 3350) = true ∧
    (tokenIssuedAt T).is_expired (T + 3000) = false ∧
    (ct.is_expired now = true ↔
      ∃ ea, ct.expires_at = some ea ∧ ea - 300 ≤ now) := by
  refine ⟨?_, ?_, ?_, ?_, ?_⟩
  · cases h : t.expires_in with
    | none => simp [OAuthToken.is_expired, h]
    | some e =>
      simp only [OAuthToken.is_expired, TOKEN_REFRESH_MARGIN_SECS, h, decide_eq_true_eq,
        Option.some.injEq]
      constructor
      · intro hle
        exact ⟨e, rfl, by omega⟩
      · rintro ⟨e', he', hle⟩
        omega
  · intro h
    simp [OAuthToken.is_expired, h]
  · simp only [OAuthToken.is_expired, TOKEN_REFRESH_MARGIN_SECS, tokenIssuedAt,
      decide_eq_true_eq]
    omega
  · simp only [OAuthToken.is_expired, TOKEN_REFRESH_MARGIN_SECS, tokenIssuedAt,
      decide_eq_false_iff_not, not_le]
    omega
  · cases h : ct.expires_at with
    | none => simp [ConnectorToken.is_expired, h]
    | some ea =>
      simp only [ConnectorToken.is_expired, TOKEN_REFRESH_MARGIN_SECS, h,
        decide_eq_true_eq, Option.some.injEq]
      constructor
      · intro hle
        exact ⟨ea, rfl, by omega⟩
      · rintro ⟨ea', he', hle⟩
        omega

/-- C5 witness: the margin theorem applied at a concrete token: issued at
0 with `expires_in = 3600`, it is expired at 3350 and not at 3000. -/
theorem token_expiry_margin_witness :
    (tokenIssuedAt 0).is_expired 3350 = true ∧
    (tokenIssuedAt 0).is_expired 3000 = false :=
  ⟨(token_expiry_margin (tokenIssuedAt 0) ⟨"a", none, none, none⟩ 0 0).2.2.1,
    (token_expiry_margin (tokenIssuedAt 0) ⟨"a", none, none, none⟩ 0 0).2.2.2.1⟩

/-! ## Access-token retrieval with automatic refresh

`AtlassianOAuth::get_access_token` (mcp/oauth.rs) and
`connector_get_token` (commands/connector.rs).  Network refresh calls are
oracles passed as parameters; the second component of each result is the
stored token after the call (memory + vault, which the source keeps in
sync via `save_token` / `SECRETS.set`). -/

/-- `AtlassianOAuth::get_access_token`: when the cached token is expired,
try `refresh_token()`; on refresh failure KEEP and RETURN the stale
token (the source comments this fallback explicitly). `refreshResult` is
the oracle for the refresh HTTP round trip; `refresh_token()` fails
before the network call when no refresh token is stored. -/
def getAccessToken (tok : Option OAuthToken) (now : Int)
    (refreshResult : Except String OAuthToken) :
    Option String × Option OAuthToken :=
  match tok with
  | none => (none, none)
  | some t =>
    if t.is_expired now then
      match t.refresh_token with
      | none => (some t.access_token, some t)
      | some _ =>
        match refreshResult with
        | .ok nt =>
          (some ({ nt with issued_at := now } : OAuthToken).access_token,
            some { nt with issued_at := now })
        | .error _ => (some t.access_token, some t)
    else (some t.access_token, some t)

/-- `TokenRefreshResponse` from `commands/connector.rs`. -/
structure TokenRefreshResponse where
  access_token : String
  refresh_token : Option String
  expires_in : Option Int
  token_type : Option String
deriving DecidableEq, Repr

/-- `try_refresh_token`: fails without a refresh token, without an OAuth
config for the connector, or without env credentials; otherwise the
refresh HTTP response (oracle `resp`) is converted into a new
`ConnectorToken`, keeping the old `refresh_token`/`token_type` when the
response omits them and converting `expires_in` to `expires_at`. -/
def try_refresh_token (hasConfig hasEnvCreds : Bool) (current : ConnectorToken)
    (resp : Except String TokenRefreshResponse) (now : Int) :
    Except String ConnectorToken :=
  match current.refresh_token with
  | none => .error "No refresh token available"
  | some _ =>
    if !hasConfig then .error "No OAuth config for connector"
    else if !hasEnvCreds then .error "Missing env var"
    else
      match resp with
      | .error e => .error e
      | .ok r =>
        .ok { access_token := r.access_token,
              refresh_token := r.refresh_token.orElse (fun _ => current.refresh_token),
              expires_at := r.expires_in.map (fun exp => now + exp),
              token_type := r.token_type.orElse (fun _ => current.token_type) }

/-- `connector_get_token`: return the stored access token, refreshing
first when expired; on refresh failure return `Ok(None)` ("no usable
token") and leave the stale token stored; without a refresh token also
return `Ok(None)`. -/
def connector_get_token (stored : Option ConnectorToken) (now : Int)
    (hasConfig hasEnvCreds : Bool) (resp : Except String TokenRefreshResponse) :
    Except String (Option String) × Option ConnectorToken :=
  match stored with
  | none => (.ok none, none)
  | some token =>
    if token.is_expired now then
      if token.can_refresh then
        match try_refresh_token hasConfig hasEnvCreds token resp now with
        | .ok newToken => (.ok (some newToken.access_token), some newToken)
        | .error _ => (.ok none, some token)
      else (.ok none, some token)
    else (.ok (some token.access_token), some token)

/-- A concrete expired OAuth token holding a refresh token. -/
def tokStale : OAuthToken :=
  { access_token := "stale-access", token_type := "bearer",
    expires_in := some 3600, refresh_token := some "rt", scope := none,
    issued_at := 0 }

/-- C7 counterexample: with the cached MCP OAuth token expired, a refresh
token present and the refresh attempt failing, `get_access_token` does
NOT report "no usable token": it returns the stale access token. -/
theorem get_access_token_stale_fallback :
    (getAccessToken (some tokStale) 100000 (.error "Token refresh returned 500")).1 =
      some "stale-access" ∧
    (getAccessToken (some tokStale) 100000 (.error "Token refresh returned 500")).1 ≠
      none := by
  exact ⟨rfl, by decide⟩

/-- C7 (amended): on a failed refresh of an expired token, the CONNECTOR
path `connector_get_token` returns `Ok(None)` ("no usable token", never a
raw HTTP error) and leaves the stale token in storage; the MCP path
`get_access_token` instead returns the stale access token, also leaving
the stale token in place. -/
theorem refresh_failure_no_usable_token (t : OAuthToken) (ct : ConnectorToken)
    (now : Int) (e : String)
    (ht : t.is_expired now = true) (hrt : t.refresh_token.isSome = true)
    (hct : ct.is_expired now = true) (hcr : ct.can_refresh = true) :
    (∀ hasConfig hasEnvCreds,
      connector_get_token (some ct) now hasConfig hasEnvCreds (.error e) =
        (.ok none, some ct)) ∧
    getAccessToken (some t) now (.error e) = (some t.access_token, some t) := by
  constructor
  · intro hasConfig hasEnvCreds
    have hrt' : ∃ r, ct.refresh_token = some r := by
      rcases h : ct.refresh_token with - | r
      · rw [ConnectorToken.can_refresh, h] at hcr
        simp at hcr
      · exact ⟨r, rfl⟩
    obtain ⟨r, hr⟩ := hrt'
    cases hasConfig <;> cases hasEnvCreds <;>
      simp [connector_get_token, hct, hcr, try_refresh_token, hr]
  · rcases h : t.refresh_token with - | r
    · rw [h] at hrt
      simp at hrt
    · simp [getAccessToken, ht, h]

/-- C7 witness: the amended theorem at a concrete expired connector token
and the concrete stale MCP token. -/
theorem refresh_failure_no_usable_token_witness :
    tokStale.is_expired 100000 = true ∧
    connector_get_token (some ⟨"ca", some "crt", some 50, none⟩) 100000 true true
      (.error "HTTP 500") = (.ok none, some ⟨"ca", some "crt", some 50, none⟩) ∧
    getAccessToken (some tokStale) 100000 (.error "HTTP 500") =
      (some tokStale.access_token, some tokStale) := by
  refine ⟨by decide, ?_, ?_⟩
  · exact (refresh_failure_no_usable_token tokStale ⟨"ca", some "crt", some 50, none⟩
      100000 "HTTP 500" (by decide) (by decide) (by decide) (by decide)).1 true true
  · exact (refresh_failure_no_usable_token tokStale ⟨"ca", some "crt", some 50, none⟩
      100000 "HTTP 500" (by decide) (by decide) (by decide) (by decide)).2

/-! ## The OAuth redirect listener (`run_callback_server`)

A request is modelled as the raw request path plus the query parameters
as parsed by the external `url` crate (`none` models a parse failure of
`Url::parse`).  The token-exchange network call
(`exchange_code_for_token`) is an oracle taking the authorization code
and the PKCE verifier; the fourth component of the handler result records
whether that oracle was invoked at all. -/

/-- `PkceData` from `mcp/oauth.rs`. -/
structure PkceData where
  code_verifier : String
  state : String
deriving DecidableEq, Repr

/-- An HTTP request hitting the redirect listener. -/
structure CbRequest where
  path : String
  params : Option (List (String × String))
deriving Repr

/-- Query-parameter lookup (`params.get(..)` on the collected pairs). -/
def lookupParam (ps : List (String × String)) (k : String) : Option String :=
  List.lookup k ps

/-- The source's `path.starts_with("/callback")`, written over the
character list so that it evaluates in the kernel. -/
def pathIsCallback (p : String) : Bool :=
  p.data.take 9 == "/callback".data

/-- The `/callback` branch of `run_callback_server` (mcp/oauth.rs lines
507-549): with both `code` and `state` present the pending PKCE data is
TAKEN (cleared) before the state check; a state mismatch yields
"Invalid OAuth state" without calling the exchange oracle; a match
exchanges the code and stores the token with `issued_at = now`.  Result:
(outcome sent over the one-shot channel, pending PKCE after, token
storage after, whether the exchange oracle ran). -/
def handleCallbackRequest (params : Option (List (String × String)))
    (pending : Option PkceData) (tokenStore : Option OAuthToken) (now : Int)
    (exchange : String → String → Except String OAuthToken) :
    Except String String × Option PkceData × Option OAuthToken × Bool :=
  match params with
  | none => (.error "Failed to parse callback URL", pending, tokenStore, false)
  | some ps =>
    match lookupParam ps "code", lookupParam ps "state" with
    | some code, some st =>
      match pending with
      | some pkce =>
        if pkce.state = st then
          match exchange code pkce.code_verifier with
          | .ok tok =>
            (.ok "OAuth authentication successful", none,
              some { tok with issued_at := now }, true)
          | .error e => (.error ("Token exchange failed: " ++ e), none, tokenStore, true)
        else (.error "Invalid OAuth state", none, tokenStore, false)
      | none => (.error "No pending OAuth session", none, tokenStore, false)
    | _, _ =>
      match lookupParam ps "error" with
      | some err =>
        match lookupParam ps "error_description" with
        | some d => (.error ("OAuth error: " ++ err ++ ": " ++ d), pending, tokenStore, false)
        | none => (.error ("OAuth error: " ++ err), pending, tokenStore, false)
      | none => (.error "Invalid callback parameters", pending, tokenStore, false)

/-- The accept loop of `run_callback_server` over a sequence of incoming
requests: non-`/callback` paths get a 404 and the loop keeps waiting; the
FIRST `/callback` request is handled, its result is sent over the
one-shot channel and the server returns (later requests of the sequence
are never processed).  An exhausted sequence models shutdown/timeout.
Result: (delivered outcome if any, pending PKCE after, token storage
after, number of token-exchange attempts). -/
def runCallbackServer (reqs : List CbRequest) (pending : Option PkceData)
    (tokenStore : Option OAuthToken) (now : Int)
    (exchange : String → String → Except String OAuthToken) :
    Option (Except String String) × Option PkceData × Option OAuthToken × Nat :=
  match reqs with
  | [] => (none, pending, tokenStore, 0)
  | r :: rest =>
    if pathIsCallback r.path then
      match handleCallbackRequest r.params pending tokenStore now exchange with
      | (res, p', t', ex) => (some res, p', t', if ex then 1 else 0)
    else runCallbackServer rest pending tokenStore now exchange

/-- C6: a `/callback` request carrying `code` and `state` whose state
differs from the pending flow's state yields the "Invalid OAuth state"
error and never invokes the token-exchange call — for EVERY exchange
oracle, the handler output reports the exchange as not executed. -/
theorem callback_state_mismatch_no_exchange (ps : List (String × String))
    (pkce : PkceData) (tokenStore : Option OAuthToken) (now : Int)
    (exchange : String → String → Except String OAuthToken) (code st : String)
    (hc : lookupParam ps "code" = some code)
    (hs : lookupParam ps "state" = some st)
    (hne : pkce.state ≠ st) :
    handleCallbackRequest (some ps) (some pkce) tokenStore now exchange =
      (.error "Invalid OAuth state", none, tokenStore, false) := by
  simp [handleCallbackRequest, hc, hs, hne]

/-- C6 witness: the mismatch theorem at concrete query parameters and a
concrete pending flow. -/
theorem callback_state_mismatch_no_exchange_witness :
    lookupParam [("code", "abc"), ("state", "zzz")] "code" = some "abc" ∧
    lookupParam [("code", "abc"), ("state", "zzz")] "state" = some "zzz" ∧
    handleCallbackRequest (some [("code", "abc"), ("state", "zzz")])
        (some ⟨"ver", "sss"⟩) none 17 (fun _ _ => .error "unused") =
      (.error "Invalid OAuth state", none, none, false) :=
  ⟨by decide, by decide,
    callback_state_mismatch_no_exchange [("code", "abc"), ("state", "zzz")]
      ⟨"ver", "sss"⟩ none 17 (fun _ _ => .error "unused") "abc" "zzz"
      (by decide) (by decide) (by decide)⟩

theorem handleCallback_clears_pending (ps : List (String × String))
    (pending : Option PkceData) (ts : Option OAuthToken) (now : Int)
    (exchange : String → String → Except String OAuthToken) (code st : String)
    (hc : lookupParam ps "code" = some code)
    (hs : lookupParam ps "state" = some st) :
    (handleCallbackRequest (some ps) pending ts now exchange).2.1 = none := by
  cases pending with
  | none => simp [handleCallbackRequest, hc, hs]
  | some pkce =>
    by_cases hst : pkce.state = st
    · cases hex : exchange code pkce.code_verifier with
      | error e => simp [handleCallbackRequest, hc, hs, hst, hex]
      | ok tok => simp [handleCallbackRequest, hc, hs, hst, hex]
    · simp [handleCallbackRequest, hc, hs, hst]

theorem runCallbackServer_exchange_le_one (reqs : List CbRequest)
    (pending : Option PkceData) (ts : Option OAuthToken) (now : Int)
    (exchange : String → String → Except String OAuthToken) :
    (runCallbackServer reqs pending ts now exchange).2.2.2 ≤ 1 := by
  induction reqs generalizing pending ts with
  | nil => simp [runCallbackServer]
  | cons r rest ih =>
    by_cases h : pathIsCallback r.path
    · rcases hh : handleCallbackRequest r.params pending ts now exchange with
        ⟨res, p', t', ex⟩
      simp only [runCallbackServer, h, if_true, hh]
      cases ex <;> simp
    · simp only [runCallbackServer, h, Bool.false_eq_true, if_false]
      exact ih pending ts

theorem runCallbackServer_skip (pre rest : List CbRequest)
    (pending : Option PkceData) (ts : Option OAuthToken) (now : Int)
    (exchange : String → String → Except String OAuthToken)
    (h1 : ∀ q ∈ pre, pathIsCallback q.path = false) :
    runCallbackServer (pre ++ rest) pending ts now exchange =
      runCallbackServer rest pending ts now exchange := by
  induction pre with
  | nil => rfl
  | cons q pre ih =>
    have hq : pathIsCallback q.path = false := h1 q (by simp)
    rw [List.cons_append]
    simp only [runCallbackServer, hq, Bool.false_eq_true, if_false]
    exact ih (fun p hp => h1 p (List.mem_cons_of_mem _ hp))

/-- C10: one `start_auth_flow` invocation performs at most one
token-exchange attempt.  For every request sequence the listener invokes
the exchange oracle at most once; the first `/callback` request carrying
both `code` and `state` clears the pending PKCE data (even on a state
mismatch), terminates the listener (the requests after it never influence
the outcome), and any later `/callback` request — against the now-empty
pending slot — gets "No pending OAuth session" without an exchange. -/
theorem auth_flow_single_exchange (pre post : List CbRequest) (r : CbRequest)
    (pending : Option PkceData) (ts : Option OAuthToken) (now : Int)
    (exchange : String → String → Except String OAuthToken)
    (ps : List (String × String)) (code st : String)
    (h1 : ∀ q ∈ pre, pathIsCallback q.path = false)
    (h2 : pathIsCallback r.path = true)
    (hp : r.params = some ps)
    (hc : lookupParam ps "code" = some code)
    (hs : lookupParam ps "state" = some st) :
    (∀ reqs p₀ t₀, (runCallbackServer reqs p₀ t₀ now exchange).2.2.2 ≤ 1) ∧
    (runCallbackServer (pre ++ r :: post) pending ts now exchange).2.1 = none ∧
    runCallbackServer (pre ++ r :: post) pending ts now exchange =
      runCallbackServer (pre ++ [r]) pending ts now exchange ∧
    (∀ t₀, handleCallbackRequest (some ps) none t₀ now exchange =
      (.error "No pending OAuth session", none, t₀, false)) := by
  refine ⟨?_, ?_, ?_, ?_⟩
  · intro reqs p₀ t₀
    exact runCallbackServer_exchange_le_one reqs p₀ t₀ now exchange
  · rw [runCallbackServer_skip pre (r :: post) pending ts now exchange h1]
    rcases hh : handleCallbackRequest r.params pending ts now exchange with
      ⟨res, p', t', ex⟩
    have hclr := handleCallback_clears_pending ps pending ts now exchange code st hc hs
    rw [hp] at hh
    rw [hh] at hclr
    simp only [runCallbackServer, h2, if_true, hp, hh]
    exact hclr
  · rw [runCallbackServer_skip pre (r :: post) pending ts now exchange h1,
      runCallbackServer_skip pre [r] pending ts now exchange h1]
    simp only [runCallbackServer, h2, if_true]
  · intro t₀
    simp [handleCallbackRequest, hc, hs]

/-- C10 witness: a concrete flow with a stray probe, a mismatched first
callback and a second callback that arrives too late. -/
theorem auth_flow_single_exchange_witness :
    pathIsCallback "/callback?code=abc&state=zzz" = true ∧
    (runCallbackServer
        ([⟨"/favicon.ico", none⟩] ++
          ⟨"/callback?code=abc&state=zzz", some [("code", "abc"), ("state", "zzz")]⟩ ::
            [⟨"/callback?code=x&state=y", some [("code", "x"), ("state", "y")]⟩])
        (some ⟨"ver", "sss"⟩) none 17 (fun _ _ => .error "unused")).2.1 = none :=
  ⟨by decide,
    (auth_flow_single_exchange [⟨"/favicon.ico", none⟩]
      [⟨"/callback?code=x&state=y", some [("code", "x"), ("state", "y")]⟩]
      ⟨"/callback?code=abc&state=zzz", some [("code", "abc"), ("state", "zzz")]⟩
      (some ⟨"ver", "sss"⟩) none 17 (fun _ _ => .error "unused")
      [("code", "abc"), ("state", "zzz")] "abc" "zzz"
      (by decide) (by decide) rfl (by decide) (by decide)).2.1⟩


/-! ## `mcp/client.rs`: `McpClient::connect` with exponential backoff

`connect_inner` (SSE connect + initialize handshake + tool fetch) is an
oracle `outcome : Nat → Except String Unit` giving the result of attempt
`n` (0-based); `jitter n` is the random `gen_range(0..1000)` drawn after
failed attempt `n`.  The source loop retries while
`attempt < MAX_RETRY_ATTEMPTS`; `connectLoop`'s `fuel` argument is the
number of retries left (`MAX_RETRY_ATTEMPTS - attempt`), so the branch
on it mirrors the source's `attempt < MAX_RETRY_ATTEMPTS` guard. -/

/-- `MAX_RETRY_ATTEMPTS` from `McpClient::connect`. -/
def MAX_RETRY_ATTEMPTS : Nat := 5

/-- The retry delay: `min(1000 * 2^attempt + jitter, 30000)` milliseconds
(`1000u64 * (1u64 << attempt)` plus the jitter, capped at 30000). -/
def delayMs (attempt jitter : Nat) : Nat :=
  min (1000 * 2 ^ attempt + jitter) 30000

/-- The give-up message
`format!("Connection failed after {} attempts: {}", attempt + 1, e)`. -/
def connectFailMsg (attempts : Nat) (e : String) : String :=
  "Connection failed after " ++ toString attempts ++ " attempts: " ++ e

/-- The retry loop of `connect`: try attempt `attempt`; on failure with
retries left, sleep `delayMs` milliseconds and continue; with none left,
give up with the formatted last failure.  Returns the result (`ok`
carries the total number of attempts made) and the list of delays
slept. -/
def connectLoop (outcome : Nat → Except String Unit) (jitter : Nat → Nat) :
    Nat → Nat → Except String Nat × List Nat
  | attempt, 0 =>
    match outcome attempt with
    | .ok _ => (.ok (attempt + 1), [])
    | .error e => (.error (connectFailMsg (attempt + 1) e), [])
  | attempt, fuel + 1 =>
    match outcome attempt with
    | .ok _ => (.ok (attempt + 1), [])
    | .error _ =>
      let p := connectLoop outcome jitter (attempt + 1) fuel
      (p.1, delayMs attempt (jitter attempt) :: p.2)

theorem connectLoop_delays (outcome : Nat → Except String Unit) (jitter : Nat → Nat)
    (attempt fuel : Nat) :
    ∃ k, k ≤ fuel ∧ (connectLoop outcome jitter attempt fuel).2 =
      (List.range k).map (fun i => delayMs (attempt + i) (jitter (attempt + i))) := by
  induction fuel generalizing attempt with
  | zero =>
    refine ⟨0, le_refl 0, ?_⟩
    cases h : outcome attempt <;> simp [connectLoop, h]
  | succ fuel' ih =>
    cases h : outcome attempt with
    | ok u =>
      exact ⟨0, Nat.zero_le _, by simp [connectLoop, h]⟩
    | error e0 =>
      obtain ⟨k, hk, hds⟩ := ih (attempt + 1)
      refine ⟨k + 1, by omega, ?_⟩
      have hshift : (List.range k).map
          (fun i => delayMs (attempt + 1 + i) (jitter (attempt + 1 + i))) =
          (List.range k).map
            (fun i => delayMs (attempt + (i + 1)) (jitter (attempt + (i + 1)))) := by
        apply List.map_congr_left
        intro i _
        rw [show attempt + 1 + i = attempt + (i + 1) from by omega]
      simp only [connectLoop, h, hds, hshift]
      rw [List.range_succ_eq_map]
      simp [List.map_map, Function.comp_def]

theorem connectLoop_error (outcome : Nat → Except String Unit) (jitter : Nat → Nat)
    (attempt fuel : Nat) (e : String)
    (he : (connectLoop outcome jitter attempt fuel).1 = .error e) :
    (connectLoop outcome jitter attempt fuel).2.length = fuel ∧
    ∃ e0, outcome (attempt + fuel) = .error e0 ∧
      e = connectFailMsg (attempt + fuel + 1) e0 := by
  induction fuel generalizing attempt with
  | zero =>
    cases h : outcome attempt with
    | ok u => simp [connectLoop, h] at he
    | error e0 =>
      simp only [connectLoop, h] at he
      exact ⟨by simp [connectLoop, h], e0, by simpa using h, by simpa using he.symm⟩
  | succ fuel' ih =>
    cases h : outcome attempt with
    | ok u => simp [connectLoop, h] at he
    | error e0 =>
      simp only [connectLoop, h] at he
      obtain ⟨hlen, e1, hout, hmsg⟩ := ih (attempt + 1) he
      refine ⟨by simp [connectLoop, h, hlen], e1, ?_, ?_⟩
      · rw [show attempt + (fuel' + 1) = attempt + 1 + fuel' from by omega]
        exact hout
      · rw [hmsg]
        congr 1
        omega

/-- `McpConnectionStatus` from `mcp/types.rs`. -/
structure McpConnectionStatus where
  is_connected : Bool
  is_connecting : Bool
  error : Option String
  server_name : Option String
deriving DecidableEq, Repr

/-- The SSE-retry half of `connect`: run the loop from attempt 0 with 5
retries; on success flip the status to connected, on failure record the
error message in the status. -/
def mcpConnectRetry (st1 : McpConnectionStatus)
    (outcome : Nat → Except String Unit) (jitter : Nat → Nat) :
    Except String Unit × McpConnectionStatus × List Nat :=
  match connectLoop outcome jitter 0 MAX_RETRY_ATTEMPTS with
  | (.ok _, ds) =>
    (.ok (),
      { st1 with
        is_connected := true
        is_connecting := false
        server_name := some "Atlassian" }, ds)
  | (.error msg, ds) =>
    (.error msg,
      { st1 with
        is_connecting := false
        error := some msg }, ds)

/-- `McpClient::connect`: no-op when already connected or connecting;
clear the error and set `is_connecting`; without a stored token run the
interactive OAuth flow first (oracle `authResult`, not retried); then the
backoff retry loop. -/
def mcpConnect (st : McpConnectionStatus) (hasToken : Bool)
    (authResult : Except String String)
    (outcome : Nat → Except String Unit) (jitter : Nat → Nat) :
    Except String Unit × McpConnectionStatus × List Nat :=
  if st.is_connected || st.is_connecting then (.ok (), st, [])
  else
    let st1 :=
      { st with
        is_connecting := true
        error := none }
    if hasToken then mcpConnectRetry st1 outcome jitter
    else
      match authResult with
      | .ok _ => mcpConnectRetry st1 outcome jitter
      | .error e =>
        (.error e,
          { st1 with
            is_connecting := false
            error := some e }, [])

theorem delayMs_le_30000 (a j : Nat) : delayMs a j ≤ 30000 :=
  Nat.min_le_right _ _

theorem delayMs_mono (a j j' : Nat) (hj : j < 1000) :
    delayMs a j ≤ delayMs (a + 1) j' := by
  unfold delayMs
  have h1 : (1 : Nat) ≤ 2 ^ a := Nat.one_le_two_pow
  have h2 : 2 ^ (a + 1) = 2 * 2 ^ a := by rw [pow_succ]; ring
  have key : 1000 * 2 ^ a + j ≤ 1000 * 2 ^ (a + 1) + j' := by
    rw [h2]
    obtain ⟨x, hx⟩ : ∃ x, 2 ^ a = x := ⟨2 ^ a, rfl⟩
    rw [hx] at h1 ⊢
    omega
  exact min_le_min key (le_refl 30000)

theorem delays_get (ds : List Nat) (k : Nat) (jitter : Nat → Nat)
    (hds : ds = (List.range k).map (fun i => delayMs i (jitter i)))
    (i : Nat) (hi : i < ds.length) :
    ds.get ⟨i, hi⟩ = min (1000 * 2 ^ i + jitter i) 30000 := by
  subst hds
  have hik : i < k := by simpa using hi
  simp [List.get_eq_getElem, delayMs, hik]

/-- C8: once a credential exists, each failed attempt `n < 5` is retried
after `min(1000 * 2^n + jitter n, 30000)` milliseconds; at most 5 retries
(6 attempts) happen; for every jitter choice in `[0, 1000)` the delay
sequence is non-decreasing and capped at 30000 ms; and exhausting the
retries stores the last failure message (formatted as "Connection failed
after 6 attempts: ...") in the status error and returns it as the
error. -/
theorem mcp_connect_backoff (st : McpConnectionStatus)
    (authResult : Except String String)
    (outcome : Nat → Except String Unit) (jitter : Nat → Nat)
    (h1 : st.is_connected = false) (h2 : st.is_connecting = false)
    (hj : ∀ n, jitter n < 1000) :
    (mcpConnect st true authResult outcome jitter).2.2.length ≤ 5 ∧
    (∀ i, (hi : i < (mcpConnect st true authResult outcome jitter).2.2.length) →
      (mcpConnect st true authResult outcome jitter).2.2.get ⟨i, hi⟩ =
        min (1000 * 2 ^ i + jitter i) 30000) ∧
    (∀ i, (hi : i + 1 < (mcpConnect st true authResult outcome jitter).2.2.length) →
      (mcpConnect st true authResult outcome jitter).2.2.get ⟨i, Nat.lt_of_succ_lt hi⟩ ≤
        (mcpConnect st true authResult outcome jitter).2.2.get ⟨i + 1, hi⟩) ∧
    (∀ i, (hi : i < (mcpConnect st true authResult outcome jitter).2.2.length) →
      (mcpConnect st true authResult outcome jitter).2.2.get ⟨i, hi⟩ ≤ 30000) ∧
    (∀ e, (mcpConnect st true authResult outcome jitter).1 = .error e →
      (mcpConnect st true authResult outcome jitter).2.1.error = some e ∧
      (mcpConnect st true authResult outcome jitter).2.2.length = 5 ∧
      ∃ e0, outcome 5 = .error e0 ∧ e = connectFailMsg 6 e0) := by
  have hcond : (st.is_connected || st.is_connecting) = false := by
    rw [h1, h2]
    rfl
  have hbr : mcpConnect st true authResult outcome jitter =
      mcpConnectRetry
        { st with
          is_connecting := true
          error := none } outcome jitter := by
    simp [mcpConnect, hcond]
  obtain ⟨k, hk, hds0⟩ := connectLoop_delays outcome jitter 0 MAX_RETRY_ATTEMPTS
  have hzero : (fun i => delayMs (0 + i) (jitter (0 + i))) =
      (fun i => delayMs i (jitter i)) := by
    funext i
    rw [Nat.zero_add]
  rw [hzero] at hds0
  rcases hp : connectLoop outcome jitter 0 MAX_RETRY_ATTEMPTS with ⟨r, ds⟩
  rw [hp] at hds0
  simp only at hds0
  have hlen : ds.length = k := by
    rw [hds0]
    simp
  have hget := delays_get ds k jitter hds0
  have hcap : ∀ i, (hi : i < ds.length) → ds.get ⟨i, hi⟩ ≤ 30000 := by
    intro i hi
    rw [hget i hi]
    exact Nat.min_le_right _ _
  have hmono : ∀ i, (hi : i + 1 < ds.length) →
      ds.get ⟨i, Nat.lt_of_succ_lt hi⟩ ≤ ds.get ⟨i + 1, hi⟩ := by
    intro i hi
    rw [hget i (Nat.lt_of_succ_lt hi), hget (i + 1) hi]
    exact delayMs_mono i (jitter i) (jitter (i + 1)) (hj i)
  have hk5 : k ≤ 5 := hk
  cases r with
  | ok n =>
    have hr : mcpConnectRetry
        { st with
          is_connecting := true
          error := none } outcome jitter =
        (.ok (),
          { st with
            is_connected := true
            is_connecting := false
            error := none
            server_name := some "Atlassian" }, ds) := by
      simp [mcpConnectRetry, hp]
    rw [hbr, hr]
    refine ⟨by simp [hlen]; omega, hget, hmono, hcap, ?_⟩
    intro e he
    simp at he
  | error msg =>
    have hr : mcpConnectRetry
        { st with
          is_connecting := true
          error := none } outcome jitter =
        (.error msg,
          { st with
            is_connecting := false
            error := some msg }, ds) := by
      simp [mcpConnectRetry, hp]
    have herrinfo := connectLoop_error outcome jitter 0 MAX_RETRY_ATTEMPTS msg
      (by rw [hp])
    rw [hp] at herrinfo
    simp only at herrinfo
    obtain ⟨hlen5, e0, hout, hmsg⟩ := herrinfo
    rw [hbr, hr]
    refine ⟨by simp [hlen]; omega, hget, hmono, hcap, ?_⟩
    intro e he
    simp only [Except.error.injEq] at he
    subst he
    refine ⟨rfl, by simpa [MAX_RETRY_ATTEMPTS] using hlen5, e0, ?_, ?_⟩
    · simpa [MAX_RETRY_ATTEMPTS] using hout
    · simpa [MAX_RETRY_ATTEMPTS] using hmsg

/-- C8 witness: with every attempt failing as "boom" and zero jitter, the
connect makes 5 delays and stores "Connection failed after 6 attempts:
boom" in the status error. -/
theorem mcp_connect_backoff_witness :
    (mcpConnect ⟨false, false, none, none⟩ true (.ok "")
      (fun _ => .error "boom") (fun _ => 0)).2.2.length ≤ 5 ∧
    (mcpConnect ⟨false, false, none, none⟩ true (.ok "")
      (fun _ => .error "boom") (fun _ => 0)).2.1.error =
        some (connectFailMsg 6 "boom") :=
  ⟨(mcp_connect_backoff ⟨false, false, none, none⟩ (.ok "")
      (fun _ => .error "boom") (fun _ => 0) rfl rfl (fun _ => by show (0 : Nat) < 1000; decide)).1,
    ((mcp_connect_backoff ⟨false, false, none, none⟩ (.ok "")
      (fun _ => .error "boom") (fun _ => 0) rfl rfl (fun _ => by show (0 : Nat) < 1000; decide)).2.2.2.2
      (connectFailMsg 6 "boom") rfl).1⟩

end ITE
